import Mathlib

/-!
Verification of the compose-to-template converter (`src/main.py`).

Python strings are embedded as `List Char` (`PyStr`), so that every string
operation used by the program (`str.split`, `str.removeprefix`, slugification)
is a structurally recursive Lean function that the kernel can evaluate on
concrete inputs.  Python's `ValueError`/`TypeError`/`AttributeError` failure
modes are embedded as explicit error values of `Except`, since the program
installs no exception handler anywhere: an error value propagating to the top
of a model function corresponds to the process dying with an uncaught
exception.
-/

/-- Python strings are modelled as lists of characters. -/
abbrev PyStr := List Char

/-- Shorthand turning a Lean string literal into the embedded string type. -/
def str (s : String) : PyStr := s.data

/-- Python `raw.split(sep)` for a one-character separator `sep`:
splits at every occurrence, keeping empty fragments, and yields `[raw]`
when the separator does not occur (`"".split(":") == [""]`). -/
def pySplit (sep : Char) : PyStr → List PyStr
  | [] => [[]]
  | c :: rest =>
    if c = sep then [] :: pySplit sep rest
    else
      match pySplit sep rest with
      | a :: as => (c :: a) :: as
      | [] => [[c]]

/-- Python `raw.split(sep, 1)` in the two-element case: `some (before, after)`
when `sep` occurs (split at the first occurrence), `none` when it does not
(in the program such a one-element split is unpacked into two variables,
which raises `ValueError`). -/
def pySplitFirst (sep : Char) : PyStr → Option (PyStr × PyStr)
  | [] => none
  | c :: rest =>
    if c = sep then some ([], rest)
    else
      match pySplitFirst sep rest with
      | some (a, b) => some (c :: a, b)
      | none => none

/-- Python `raw.removeprefix("/")`: drops one leading slash if present. -/
def pyRemoveSlash : PyStr → PyStr
  | [] => []
  | c :: rest => if c = '/' then rest else c :: rest

/-- Whether a character survives slugification unchanged once lowercased:
ASCII lowercase letters and digits. -/
def isSlugChar (c : Char) : Bool :=
  ('a' ≤ c && c ≤ 'z') || ('0' ≤ c && c ≤ '9')

/-- ASCII lowercasing of one character. -/
def lowerAscii (c : Char) : Char :=
  if 'A' ≤ c && c ≤ 'Z' then Char.ofNat (c.toNat + 32) else c

/-- Groups of consecutive slug characters, discarding separator runs.
Helper for `slugify`. -/
def slugGroups (l : PyStr) : List PyStr :=
  l.foldr
    (fun c ws =>
      if isSlugChar c then
        match ws with
        | w :: ws' => (c :: w) :: ws'
        | [] => [[c]]
      else [] :: ws)
    []

/-- Modelled from the spec: the third-party `slugify` library used by
`src/main.py` is not part of the repository; §4.2 (Name Generator) specifies
it as lowercasing, collapsing every run of non-alphanumeric characters to a
single hyphen, and stripping leading/trailing separators.  This matches the
library's behaviour on the ASCII inputs arising here. -/
def slugify (l : PyStr) : PyStr :=
  List.intercalate (str "-") ((slugGroups (l.map lowerAscii)).filter (fun w => !w.isEmpty))

/-- Python `int(raw)` on a decimal literal: optional sign followed by a
nonempty digit string, surrounding spaces allowed; `none` models the
`ValueError` raised on any other input. -/
def pyInt (l : PyStr) : Option Int :=
  let t := (l.dropWhile (· = ' ')).reverse.dropWhile (· = ' ') |>.reverse
  let core :=
    match t with
    | '-' :: rest => some (true, rest)
    | '+' :: rest => some (false, rest)
    | rest => some (false, rest)
  match core with
  | some (neg, ds) =>
    if ds.isEmpty || !(ds.all (fun c => '0' ≤ c && c ≤ '9')) then none
    else
      let n : Nat := ds.foldl (fun acc c => acc * 10 + (c.toNat - '0'.toNat)) 0
      some (if neg then -(n : Int) else (n : Int))
  | none => none

/-- Uncaught Python exceptions that `convert_service` can raise.  None of
them records the service name or the offending mount string: they are the
interpreter's generic messages. -/
inductive PyValueError where
  /-- Unpacking `raw.split(":")` into two variables fails: the mount string
  contains no `':'` or more than one. -/
  | unpackColon
  /-- Unpacking `host_path.removeprefix("/").split("/", 1)` into two
  variables fails: no `'/'` remains in the stripped host path. -/
  | unpackSlash
  /-- `dict(...)` over the tmpfs attribute tokens fails: some token does not
  split at `'='` into exactly two pieces. -/
  | badAttrToken
  /-- `int(...)` fails on a non-numeric `uid`/`gid` attribute value. -/
  | badIntLiteral
  deriving DecidableEq, Repr

/-- The host-path half of bind-mount parsing (`src/main.py` line 46):
`host_path.removeprefix("/").split("/", 1)` unpacked into `pvc_name` and
`pvc_path`. -/
def parseHostGuest (host_path guest_path : PyStr) :
    Except PyValueError (PyStr × PyStr × PyStr) :=
  match pySplitFirst '/' (pyRemoveSlash host_path) with
  | some (pvc_name, pvc_path) => .ok (pvc_name, pvc_path, guest_path)
  | none => .error .unpackSlash

/-- Bind-mount parsing (`src/main.py` lines 45–46):
`host_path, guest_path = vol_mount.split(":")` followed by
`pvc_name, pvc_path = host_path.removeprefix("/").split("/", 1)`.
Yields `(pvc_name, pvc_path, guest_path)` before slugification. -/
def parseBindMount (raw : PyStr) : Except PyValueError (PyStr × PyStr × PyStr) :=
  match pySplit ':' raw with
  | [host_path, guest_path] => parseHostGuest host_path guest_path
  | _ => .error .unpackColon

/-- One tmpfs attribute token: `a.split("=")`, which `dict(...)` requires to
have exactly two elements (`src/main.py` line 89). -/
def parseAttrToken (tok : PyStr) : Except PyValueError (PyStr × PyStr) :=
  match pySplit '=' tok with
  | [k, v] => .ok (k, v)
  | _ => .error .badAttrToken

/-- Tmpfs-mount parsing (`src/main.py` lines 88–89):
`guest_path, attrs = tmpfs_mount.split(":")` then
`attrs = dict(map(lambda a: a.split("="), attrs.split(",")))`.
Yields the guest path and the attribute pairs in token order. -/
def parseTmpfsMount (raw : PyStr) :
    Except PyValueError (PyStr × List (PyStr × PyStr)) :=
  match pySplit ':' raw with
  | [guest_path, attrs] =>
    match (pySplit ',' attrs).mapM parseAttrToken with
    | .ok pairs => .ok (guest_path, pairs)
    | .error e => .error e
  | _ => .error .unpackColon

/-- Python `d[k] = v` on a dict embedded as an association list whose keys
are unique: replaces the value at an existing key in place, otherwise
appends the new pair (insertion order is preserved, as in CPython). -/
def dictSet {V : Type} : List (PyStr × V) → PyStr → V → List (PyStr × V)
  | [], k, v => [(k, v)]
  | (k', v') :: rest, k, v =>
    if k' = k then (k, v) :: rest else (k', v') :: dictSet rest k v

/-- Python `dict(pairs)`: later duplicates overwrite earlier ones, the
position of the first occurrence is kept. -/
def pyDict (ps : List (PyStr × PyStr)) : List (PyStr × PyStr) :=
  ps.foldl (fun d p => dictSet d p.1 p.2) []

/-- Decidable equality for `Except`, used to evaluate model functions on
concrete inputs. -/
instance {ε α : Type} [DecidableEq ε] [DecidableEq α] : DecidableEq (Except ε α) :=
  fun a b =>
    match a, b with
    | .ok x, .ok y =>
      if h : x = y then .isTrue (by rw [h]) else .isFalse (by simp [h])
    | .error e, .error f =>
      if h : e = f then .isTrue (by rw [h]) else .isFalse (by simp [h])
    | .ok _, .error _ => .isFalse (by simp)
    | .error _, .ok _ => .isFalse (by simp)

/-- One input service of the compose document, as `convert_service` reads it:
the `image` field is accessed unconditionally, `environment` is optional,
`volumes` and `tmpfs` default to empty sequences (`service.get(..., [])`). -/
structure Service where
  image : PyStr
  environment : Option (List (PyStr × PyStr)) := none
  volumes : List PyStr := []
  tmpfs : List PyStr := []
  deriving DecidableEq, Repr

/-- One entry of the container's `volumeMounts` sequence.  Bind mounts carry
a `subPath`, tmpfs mounts do not. -/
structure VolumeMount where
  name : PyStr
  subPath : Option PyStr
  mountPath : PyStr
  deriving DecidableEq, Repr

/-- What a volume of the service points at: a persistent volume claim
(bind mounts) or an in-memory `emptyDir` (tmpfs mounts). -/
inductive VolumeSource where
  | persistentVolumeClaim (claimName : PyStr)
  | emptyDirMemory
  deriving DecidableEq, Repr

/-- One value of the `volumes` dict built by `convert_service`. -/
structure VolumeSpec where
  name : PyStr
  source : VolumeSource
  deriving DecidableEq, Repr

/-- The container `securityContext` dict derived from tmpfs attributes. -/
structure SecurityContext where
  runAsUser : Option Int
  runAsGroup : Option Int
  fsGroup : Option Int
  deriving DecidableEq, Repr

/-- The empty `securityContext = {}` dict, which Python treats as falsy. -/
def emptySC : SecurityContext := ⟨none, none, none⟩

/-- One standalone `PersistentVolumeClaim` document appended to `extras`
(`src/main.py` lines 63–81).  All fields other than `metadata.name` are the
fixed literals of the source. -/
structure ExtraResource where
  apiVersion : PyStr
  kind : PyStr
  claimName : PyStr
  namespacePlaceholder : PyStr
  appLabel : PyStr
  accessModes : List PyStr
  storageRequest : PyStr
  deriving DecidableEq, Repr

/-- Builds the `extras` entry for one bind mount with the given rendered
claim name. -/
def mkExtraResource (cn : PyStr) : ExtraResource :=
  { apiVersion := str "v1"
    kind := str "PersistentVolumeClaim"
    claimName := cn
    namespacePlaceholder := str "\x7b\x7b .Release.Namespace \x7d\x7d"
    appLabel := str "\x7b\x7b .Release.Namespace \x7d\x7d"
    accessModes := [str "ReadWriteOnce"]
    storageRequest := str "100Mi" }

/-- The `container` dict assembled by `convert_service`: an absent
`volumeMounts` key is embedded as the empty list, an absent
`env`/`securityContext` key as `none`. -/
structure ContainerSpec where
  name : PyStr
  image : PyStr
  env : Option (List (PyStr × PyStr))
  volumeMounts : List VolumeMount
  securityContext : Option SecurityContext
  deriving DecidableEq, Repr

/-- The triple returned by `convert_service`: the container dict, the
`volumes` dict (insertion-ordered association list with unique keys), and
the `extras` list. -/
structure ConversionResult where
  container : ContainerSpec
  volumes : List (PyStr × VolumeSpec)
  extras : List ExtraResource
  deriving DecidableEq, Repr

/-- The mutable loop state of `convert_service`: the parts of the result
that the two mount loops update. -/
structure ConvState where
  volumeMounts : List VolumeMount
  volumes : List (PyStr × VolumeSpec)
  extras : List ExtraResource
  securityContext : Option SecurityContext
  deriving DecidableEq, Repr

/-- One iteration of the bind-mount loop (`src/main.py` lines 40–81):
parse, slugify the resource name, register the volume under that name,
append the volume mount, and append an extra claim unless the slugified
name is in `ignore_volumes`. -/
def processBindMount (pvc_name_template : PyStr → PyStr)
    (ignore_volumes : List PyStr) (st : ConvState) (raw : PyStr) :
    Except PyValueError ConvState :=
  match parseBindMount raw with
  | .error e => .error e
  | .ok (pvc_name0, pvc_path, guest_path) =>
    let pvc_name := slugify pvc_name0
    let vol_name := pvc_name
    let st1 : ConvState :=
      { st with
        volumes := dictSet st.volumes vol_name
          ⟨vol_name, .persistentVolumeClaim (pvc_name_template pvc_name)⟩
        volumeMounts := st.volumeMounts ++ [⟨vol_name, some pvc_path, guest_path⟩] }
    if ignore_volumes.contains vol_name then .ok st1
    else .ok { st1 with
      extras := st1.extras ++ [mkExtraResource (pvc_name_template pvc_name)] }

/-- The `securityContext` dict built from one tmpfs mount's attribute dict
(`src/main.py` lines 92–97): `uid` becomes `runAsUser`, `gid` becomes both
`runAsGroup` and `fsGroup`; values go through `int(...)`. -/
def scOfAttrs (d : List (PyStr × PyStr)) : Except PyValueError SecurityContext :=
  match List.lookup (str "uid") d, List.lookup (str "gid") d with
  | none, none => .ok ⟨none, none, none⟩
  | some u, none =>
    match pyInt u with
    | some n => .ok ⟨some n, none, none⟩
    | none => .error .badIntLiteral
  | none, some g =>
    match pyInt g with
    | some n => .ok ⟨none, some n, some n⟩
    | none => .error .badIntLiteral
  | some u, some g =>
    match pyInt u, pyInt g with
    | some nu, some ng => .ok ⟨some nu, some ng, some ng⟩
    | _, _ => .error .badIntLiteral

/-- One iteration of the tmpfs loop (`src/main.py` lines 83–110): parse,
build a fresh `securityContext` dict and — when it is nonempty — assign it
to the container (overwriting any previous value), register an in-memory
volume under the per-service slugified name, and append a volume mount
without `subPath`. -/
def processTmpfsMount (name : PyStr) (st : ConvState) (raw : PyStr) :
    Except PyValueError ConvState :=
  match parseTmpfsMount raw with
  | .error e => .error e
  | .ok (guest_path, attrPairs) =>
    match scOfAttrs (pyDict attrPairs) with
    | .error e => .error e
    | .ok sc =>
      let vol_name := slugify (name ++ str "-" ++ pyRemoveSlash guest_path)
      .ok { st with
        securityContext := if sc = emptySC then st.securityContext else some sc
        volumes := dictSet st.volumes vol_name ⟨vol_name, .emptyDirMemory⟩
        volumeMounts := st.volumeMounts ++ [⟨vol_name, none, guest_path⟩] }

/-- Runs one of the mount loops over its list of raw strings, stopping at
the first uncaught exception exactly as the Python `for` loop does. -/
def processAll (step : ConvState → PyStr → Except PyValueError ConvState) :
    ConvState → List PyStr → Except PyValueError ConvState
  | st, [] => .ok st
  | st, raw :: rest =>
    match step st raw with
    | .ok st' => processAll step st' rest
    | .error e => .error e

/-- The whole of `convert_service` (`src/main.py` lines 30–112): initialize
the container dict, run the bind-mount loop, run the tmpfs loop, and
assemble the result triple.  An error value is an uncaught exception. -/
def convert_service (name : PyStr) (service : Service)
    (pvc_name_template : PyStr → PyStr) (ignore_volumes : List PyStr) :
    Except PyValueError ConversionResult :=
  match processAll (processBindMount pvc_name_template ignore_volumes)
      ⟨[], [], [], none⟩ service.volumes with
  | .error e => .error e
  | .ok st1 =>
    match processAll (processTmpfsMount name) st1 service.tmpfs with
    | .error e => .error e
    | .ok st2 =>
      .ok { container :=
              { name := name
                image := service.image
                env := service.environment
                volumeMounts := st2.volumeMounts
                securityContext := st2.securityContext }
            volumes := st2.volumes
            extras := st2.extras }

/-- The default claim-name template of `convert_service`:
`"\x7b\x7b\x7b\x7b .Release.Name \x7d\x7d\x7d\x7d-{name}".format(name=...)`
renders to the literal Helm reference followed by the name. -/
def pvc_name_template_default (name : PyStr) : PyStr :=
  str "\x7b\x7b .Release.Name \x7d\x7d-" ++ name

/-- One write of the output template file, kept structured: directives,
comments, and serialized YAML payloads (whose textual rendering by
`yaml.safe_dump` is not modelled; an empty document list renders as no
text, matching `yaml.safe_dump_all([])`). -/
inductive Line where
  /-- The provenance line `\x7b\x7b/* derived from <repo>/<path> */\x7d\x7d`
  written when the output file is created, carrying the compose file it was
  derived from. -/
  | citation (composeFileName : PyStr)
  /-- The per-service comment
  `\x7b\x7b/* container spec and volumes for <name> */\x7d\x7d`. -/
  | provenance (serviceName : PyStr)
  /-- A block-start directive `\x7b\x7b- define "<label>" \x7d\x7d`. -/
  | defineBlock (label : PyStr)
  /-- A block-end directive `\x7b\x7b- end \x7d\x7d`. -/
  | endBlock
  /-- The `## Source: <fname>` comment written inside every block. -/
  | sourceComment (fname : PyStr)
  /-- `yaml.safe_dump([container], stream)`. -/
  | yamlContainers (cs : List ContainerSpec)
  /-- `yaml.safe_dump(list(volumes.values()), stream)`. -/
  | yamlVolumes (vs : List VolumeSpec)
  /-- One document of `yaml.safe_dump_all(extras, stream)`. -/
  | yamlExtraDoc (e : ExtraResource)
  deriving DecidableEq, Repr

/-- The writes performed for one converted service (`src/main.py` lines
189–211): the three named blocks in order `containers`, `volumes`,
`extras`; the volumes payload is written only when the dict is truthy
(`if volumes:`), and `safe_dump_all` writes one document per extra. -/
def emitService (service_name out_fname : PyStr) (container : ContainerSpec)
    (volumes : List (PyStr × VolumeSpec)) (extras : List ExtraResource) :
    List Line :=
  [Line.provenance service_name,
   Line.defineBlock (service_name ++ str ".containers"),
   Line.sourceComment out_fname,
   Line.yamlContainers [container],
   Line.endBlock,
   Line.defineBlock (service_name ++ str ".volumes"),
   Line.sourceComment out_fname]
  ++ (if volumes.isEmpty then [] else [Line.yamlVolumes (volumes.map Prod.snd)])
  ++ [Line.endBlock,
      Line.defineBlock (service_name ++ str ".extras"),
      Line.sourceComment out_fname]
  ++ extras.map Line.yamlExtraDoc
  ++ [Line.endBlock]

/-- The services loop of `main` (`src/main.py` lines 185–211): slugify each
service name, convert it, and append its blocks to the output file.  An
uncaught exception from `convert_service` ends the run: the lines already
written persist, later services are never reached. -/
def convertDocumentLoop (out_fname : PyStr) (ignore_volumes : List PyStr) :
    List (PyStr × Service) → List Line × Option PyValueError
  | [] => ([], none)
  | (service_name0, service) :: rest =>
    let service_name := slugify service_name0
    match convert_service service_name service pvc_name_template_default
        ignore_volumes with
    | .error e => ([], some e)
    | .ok r =>
      match convertDocumentLoop out_fname ignore_volumes rest with
      | (ls, e?) =>
        (emitService service_name out_fname r.container r.volumes r.extras ++ ls, e?)

/-- Whether a directory entry name is accepted by
`re.match("docker-compose\x5c.ya?ml", name)`: `re.match` anchors only at
the start, so any name beginning with `docker-compose.yml` or
`docker-compose.yaml` matches. -/
def composeNameMatch (n : PyStr) : Bool :=
  (str "docker-compose.yml").isPrefixOf n || (str "docker-compose.yaml").isPrefixOf n

/-- `get_compose_file` (`src/main.py` lines 22–28) over the scandir listing
embedded as `(name, is_file)` pairs: the first regular file whose name
matches, `none` when the loop completes without returning. -/
def get_compose_file : List (PyStr × Bool) → Option PyStr
  | [] => none
  | (n, isf) :: rest =>
    if isf && composeNameMatch n then some n else get_compose_file rest

/-- One subdirectory of the search path as the main loop sees it: its name,
whether it is a directory, its scandir listing, and the `services` mapping
that `yaml.safe_load` produces from the compose file found in it
(`contents.get('services', {})`; YAML loading itself is not modelled). -/
structure SrcDirEntry where
  name : PyStr
  isDir : Bool
  files : List (PyStr × Bool)
  services : List (PyStr × Service)
  deriving Repr

/-- Uncaught exceptions that end the directory loop of `main`. -/
inductive RunError where
  /-- `os.path.relpath(compose_file, temp_dir)` with `compose_file = None`
  raises `TypeError` (`src/main.py` line 173), after `open(out_file, 'w')`
  has already created the output file. -/
  | typeErrorRelpathNone
  /-- An uncaught exception from `convert_service`. -/
  | serviceError (e : PyValueError)
  deriving DecidableEq, Repr

/-- The directory loop of `main` (`src/main.py` lines 161–211): skip
non-directories and excluded names, create the output file, write the
citation line, convert each service.  The returned list holds the output
files that exist when the process ends (file name and content), the
optional error is the uncaught exception that ended the run; directories
after a crash are never scanned. -/
def runDirs (exclude ignore_volumes : List PyStr) :
    List SrcDirEntry → List (PyStr × List Line) × Option RunError
  | [] => ([], none)
  | d :: rest =>
    if !d.isDir || exclude.contains d.name then runDirs exclude ignore_volumes rest
    else
      let out_fname := str "_" ++ d.name ++ str ".tpl"
      match get_compose_file d.files with
      | none => ([(out_fname, [])], some .typeErrorRelpathNone)
      | some cf =>
        match convertDocumentLoop out_fname ignore_volumes d.services with
        | (ls, some e) =>
          ([(out_fname, Line.citation cf :: ls)], some (.serviceError e))
        | (ls, none) =>
          match runDirs exclude ignore_volumes rest with
          | (outs, err) => ((out_fname, Line.citation cf :: ls) :: outs, err)

/-- The hard-coded default exclusion list (`src/main.py` line 133). -/
def default_exclude : List PyStr :=
  [str "p0f", str "fatt", str "suricata", str "elk", str "ewsposter",
   str "nginx", str "spiderfoot", str "deprecated"]

/-- The hard-coded default ignored-mount list (`src/main.py` line 139). -/
def default_mount : List PyStr := [str "data"]

/-- Uncaught `AttributeError`s in the option-processing code of `main`. -/
inductive ArgsError where
  /-- `parser.exclude` (`src/main.py` line 131): `ArgumentParser` has no
  attribute `exclude`; the caller-supplied values live on `args`. -/
  | attributeErrorExclude
  /-- `parser.mount` (`src/main.py` line 137): same slip for `-m`. -/
  | attributeErrorMount
  deriving DecidableEq, Repr

/-- Selection of the applied exclusion set (`src/main.py` lines 130–134):
with no `-x` options the default list is used; any caller-supplied list is
truthy and reaches `exclude = parser.exclude`, which raises
`AttributeError` because the values were stored on `args`, not on the
parser object. -/
def selectExclude (args_exclude : List PyStr) : Except ArgsError (List PyStr) :=
  if args_exclude.isEmpty then .ok default_exclude
  else .error .attributeErrorExclude

/-- Selection of the applied ignored-mount set (`src/main.py` lines
136–140), with the same slip as `selectExclude`. -/
def selectMount (args_mount : List PyStr) : Except ArgsError (List PyStr) :=
  if args_mount.isEmpty then .ok default_mount
  else .error .attributeErrorMount

/-! ### Lemmas about the string-splitting helpers -/

theorem pySplit_ne_nil (sep : Char) : ∀ l : PyStr, pySplit sep l ≠ []
  | [] => by simp [pySplit]
  | c :: rest => by
    by_cases hc : c = sep
    · simp [pySplit, hc]
    · simp only [pySplit, if_neg hc]
      cases h : pySplit sep rest with
      | nil => simp
      | cons a as => simp

theorem pySplit_no_sep (sep : Char) : ∀ l : PyStr, sep ∉ l → pySplit sep l = [l]
  | [], _ => rfl
  | c :: rest, h => by
    have hc : ¬ c = sep := fun e => h (e ▸ List.mem_cons_self c rest)
    have ih := pySplit_no_sep sep rest (fun m => h (List.mem_cons_of_mem c m))
    simp [pySplit, hc, ih]

theorem pySplit_append_sep (sep : Char) :
    ∀ a b : PyStr, sep ∉ a → pySplit sep (a ++ sep :: b) = a :: pySplit sep b
  | [], b, _ => by simp [pySplit]
  | c :: a, b, h => by
    have hc : ¬ c = sep := fun e => h (e ▸ List.mem_cons_self c a)
    have ih := pySplit_append_sep sep a b (fun m => h (List.mem_cons_of_mem c m))
    simp [pySplit, hc, ih]

theorem length_pySplit (sep : Char) :
    ∀ l : PyStr, (pySplit sep l).length = List.count sep l + 1
  | [] => by simp [pySplit]
  | c :: rest => by
    have ih := length_pySplit sep rest
    by_cases hc : c = sep
    · simp [pySplit, hc, List.count_cons, ih]
    · simp only [pySplit, if_neg hc]
      cases h : pySplit sep rest with
      | nil => exact absurd h (pySplit_ne_nil sep rest)
      | cons a as =>
        rw [h] at ih
        simp only [List.length_cons] at ih ⊢
        simp [List.count_cons, ih, fun e => hc (e : c = sep), Ne.symm, hc]

theorem pySplitFirst_none (sep : Char) :
    ∀ l : PyStr, sep ∉ l → pySplitFirst sep l = none
  | [], _ => rfl
  | c :: rest, h => by
    have hc : ¬ c = sep := fun e => h (e ▸ List.mem_cons_self c rest)
    have ih := pySplitFirst_none sep rest (fun m => h (List.mem_cons_of_mem c m))
    simp [pySplitFirst, hc, ih]

theorem pySplitFirst_append (sep : Char) :
    ∀ a b : PyStr, sep ∉ a → pySplitFirst sep (a ++ sep :: b) = some (a, b)
  | [], b, _ => by simp [pySplitFirst]
  | c :: a, b, h => by
    have hc : ¬ c = sep := fun e => h (e ▸ List.mem_cons_self c a)
    have ih := pySplitFirst_append sep a b (fun m => h (List.mem_cons_of_mem c m))
    simp [pySplitFirst, hc, ih]

theorem parseBindMount_of_split_length_ne_two (raw : PyStr)
    (h : (pySplit ':' raw).length ≠ 2) :
    parseBindMount raw = .error .unpackColon := by
  rcases hL : pySplit ':' raw with _ | ⟨x, xs⟩
  · exact absurd hL (pySplit_ne_nil ':' raw)
  · cases xs with
    | nil => simp [parseBindMount, hL]
    | cons y ys =>
      cases ys with
      | nil => rw [hL] at h; simp at h
      | cons z zs => simp [parseBindMount, hL]

/-! ### Claim C3 -/

/-- C3: the claim says bind-mount parsing splits at the FIRST `':'` and
fails exactly when there is no `':'` or no second `'/'` in the host path.
The code instead unpacks `raw.split(":")` into two variables, so it also
fails whenever the string contains MORE than one `':'`.  This theorem is
the amended characterization: (1) parsing fails with the colon-unpacking
error unless the string contains exactly one `':'`; (2) with exactly one
`':'`, it fails with the slash-unpacking error when the host path stripped
of one leading `'/'` contains no `'/'`; (3) with exactly one `':'` and a
well-formed host path, it succeeds and returns the first host-path segment,
the remaining host path, and the guest path. -/
theorem C3_parseBindMount_characterization :
    (∀ raw : PyStr, List.count ':' raw ≠ 1 →
      parseBindMount raw = .error .unpackColon) ∧
    (∀ hp gp : PyStr, ':' ∉ hp → ':' ∉ gp → '/' ∉ pyRemoveSlash hp →
      parseBindMount (hp ++ ':' :: gp) = .error .unpackSlash) ∧
    (∀ a b g : PyStr, ':' ∉ a → '/' ∉ a → ':' ∉ b → ':' ∉ g →
      parseBindMount ('/' :: a ++ '/' :: b ++ ':' :: g) = .ok (a, b, g)) := by
  refine ⟨?_, ?_, ?_⟩
  · intro raw h
    apply parseBindMount_of_split_length_ne_two
    rw [length_pySplit]
    omega
  · intro hp gp hhp hgp hsl
    have hs : pySplit ':' (hp ++ ':' :: gp) = [hp, gp] := by
      rw [pySplit_append_sep ':' hp gp hhp, pySplit_no_sep ':' gp hgp]
    simp [parseBindMount, hs, parseHostGuest, pySplitFirst_none '/' _ hsl]
  · intro a b g ha hsa hb hg
    have hhp : ':' ∉ ('/' :: a ++ '/' :: b) := by
      intro m
      rcases List.mem_cons.mp m with e | m2
      · exact absurd e.symm (by decide)
      · rcases List.mem_append.mp m2 with m3 | m4
        · exact ha m3
        · rcases List.mem_cons.mp m4 with e | m5
          · exact absurd e.symm (by decide)
          · exact hb m5
    have hs : pySplit ':' (('/' :: a ++ '/' :: b) ++ ':' :: g) = [('/' :: a ++ '/' :: b), g] := by
      rw [pySplit_append_sep ':' _ g hhp, pySplit_no_sep ':' g hg]
    have hrp : pyRemoveSlash ('/' :: a ++ '/' :: b) = a ++ '/' :: b := by
      simp [pyRemoveSlash]
    simp only [List.cons_append, List.append_assoc] at hs hrp ⊢
    simp [parseBindMount, hs, parseHostGuest, hrp, pySplitFirst_append '/' a b hsa]

/-- C3 counterexample: `"/a/b:/d:/e"` contains a `':'` and its host path
has a `'/'` after the first segment, so by the claim it should parse
(hostPath `/a/b`, guestPath `/d:/e`); the code raises `ValueError` because
`split(":")` yields three pieces. -/
theorem C3_counterexample :
    parseBindMount (str "/a/b:/d:/e") = .error .unpackColon := by decide

/-- C3 witness: the success clause of the characterization applied to the
claim's own shape `"/a/b/c:/d/e"`. -/
theorem C3_witness :
    parseBindMount (str "/a/b/c:/d/e") = .ok (str "a", str "b/c", str "/d/e") := by
  have h := C3_parseBindMount_characterization.2.2 (str "a") (str "b/c") (str "/d/e")
    (by decide) (by decide) (by decide) (by decide)
  have e : ('/' :: str "a" ++ '/' :: str "b/c" ++ ':' :: str "/d/e") = str "/a/b/c:/d/e" := by
    decide
  rw [e] at h
  exact h

/-! ### Claim C8 -/

/-- Whether an output line is a block-start or block-end templating
directive. -/
def isBlockDirective : Line → Bool
  | .defineBlock _ => true
  | .endBlock => true
  | _ => false

theorem filter_yamlExtraDocs (es : List ExtraResource) :
    (es.map Line.yamlExtraDoc).filter isBlockDirective = [] := by
  induction es with
  | nil => rfl
  | cons e es ih => simp [isBlockDirective, ih]

/-- C8: the writes for one converted service contain exactly three
block-start/block-end directive pairs, in the order
`<service>.containers`, `<service>.volumes`, `<service>.extras`, for every
container, volumes dict and extras list — in particular the `volumes` and
`extras` pairs are emitted (open plus close) even when those sequences are
empty. -/
theorem C8_three_blocks_always (service_name out_fname : PyStr)
    (container : ContainerSpec) (volumes : List (PyStr × VolumeSpec))
    (extras : List ExtraResource) :
    (emitService service_name out_fname container volumes extras).filter
        isBlockDirective =
      [Line.defineBlock (service_name ++ str ".containers"), Line.endBlock,
       Line.defineBlock (service_name ++ str ".volumes"), Line.endBlock,
       Line.defineBlock (service_name ++ str ".extras"), Line.endBlock] := by
  by_cases hv : volumes.isEmpty <;>
    simp [emitService, hv, List.filter_append, isBlockDirective, filter_yamlExtraDocs]

/-! ### Claim C9 -/

/-- C9: the claim says a caller-supplied exclusion set is the one applied.
In the code, any caller-supplied `-x` list is truthy and reaches
`exclude = parser.exclude`, which raises `AttributeError` (the parsed
values live on `args`, not on the `ArgumentParser` object), so the run
dies before scanning anything; only the no-`-x` default path works, and a
directory whose name is in the applied (default) set is skipped with no
output unit.  This evaluates all three facts. -/
theorem C9_exclude_selection_bug :
    selectExclude [str "foo"] = .error .attributeErrorExclude ∧
    selectExclude [] = .ok default_exclude ∧
    runDirs default_exclude default_mount
      [⟨str "elk", true, [(str "docker-compose.yml", true)],
        [(str "svc", { image := str "img" })]⟩] = ([], none) := by
  exact ⟨by decide, by decide, by decide⟩

/-! ### Counterexamples evaluating the code at concrete inputs -/

/-- C1 counterexample: a document whose first service has the malformed
mount `"nocolon"` followed by a well-formed sibling.  The claim says the
sibling's conversion still completes and produces output; the code raises
an uncaught `ValueError`, the loop dies, and NO output lines exist — the
sibling is absent. -/
theorem C1_counterexample :
    convertDocumentLoop (str "_f.tpl") default_mount
      [(str "bad", { image := str "i", volumes := [str "nocolon"] }),
       (str "good", { image := str "j" })] =
      ([], some .unpackColon) := by decide

/-- C2 counterexample: two bind mounts sharing the resource name `foo` in
one service.  The volumes dict ends with exactly one entry, but `extras`
receives one `PersistentVolumeClaim` document PER mount: two extras with
the same claim name, refuting "at most one ExtraResource for that
resourceName". -/
theorem C2_counterexample :
    (convert_service (str "s")
        { image := str "i", volumes := [str "/foo/a:/x", str "/foo/b:/y"] }
        pvc_name_template_default []).toOption.map
      (fun r => (r.volumes.length, r.extras.map (fun e => e.claimName))) =
      some (1, [str "\x7b\x7b .Release.Name \x7d\x7d-foo",
                str "\x7b\x7b .Release.Name \x7d\x7d-foo"]) := by decide

/-- C4 counterexample: the bind mount `"/Data/x:/g"` has (unslugified)
resourceName `Data`.  The recorded claim name is rendered from the
slugified name `data`, not from `Data` as the claim states. -/
theorem C4_counterexample :
    (convert_service (str "s") { image := str "i", volumes := [str "/Data/x:/g"] }
        pvc_name_template_default []).toOption.map
      (fun r => r.extras.map (fun e => e.claimName)) =
      some [str "\x7b\x7b .Release.Name \x7d\x7d-data"] ∧
    (str "\x7b\x7b .Release.Name \x7d\x7d-data" : PyStr) ≠
      pvc_name_template_default (str "Data") := by
  exact ⟨by decide, by decide⟩

/-- C5 counterexample: the bind mount `"/Data/x:/g"` has resourceName
`Data`, which is in the supplied ignore set `{"Data"}`; the claim says no
ExtraResource is ever produced for it, but the code compares the slugified
name `data` against the set and emits one extra. -/
theorem C5_counterexample :
    (convert_service (str "s") { image := str "i", volumes := [str "/Data/x:/g"] }
        pvc_name_template_default [str "Data"]).toOption.map
      (fun r => r.extras.length) = some 1 := by decide

/-- C6 counterexample: tmpfs mounts `"/a:uid=1000"` then `"/b:gid=2000"`.
The claim says uid/gid are merged so earlier values survive; the code
builds a fresh `securityContext` per mount and assigns it wholesale, so
`runAsUser` from the first mount is lost (`none`, not `1000`). -/
theorem C6_counterexample :
    (convert_service (str "s")
        { image := str "i", tmpfs := [str "/a:uid=1000", str "/b:gid=2000"] }
        pvc_name_template_default []).toOption.map
      (fun r => r.container.securityContext) =
      some (some { runAsUser := none, runAsGroup := some 2000, fsGroup := some 2000 }) := by
  decide

/-- C7 counterexample: a subdirectory with no compose file followed by a
well-formed sibling.  The claim says the subdirectory is skipped with no
output unit and siblings still produce output; the code creates an (empty)
output file for it, then dies with `TypeError`, and the sibling produces
nothing. -/
theorem C7_counterexample :
    runDirs default_exclude default_mount
      [⟨str "nocompose", true, [(str "README.md", true)], []⟩,
       ⟨str "good", true, [(str "docker-compose.yml", true)],
        [(str "svc", { image := str "img" })]⟩] =
      ([(str "_nocompose.tpl", [])], some .typeErrorRelpathNone) := by decide

/-! ### Lemmas about `dictSet` and the conversion loops -/

theorem lookup_cons {V : Type} (a k : PyStr) (b : V) (es : List (PyStr × V)) :
    List.lookup a ((k, b) :: es) = if a = k then some b else List.lookup a es := by
  by_cases h : a = k
  · have hb : (a == k) = true := beq_iff_eq.mpr h
    simp [List.lookup, hb, h]
  · have hb : (a == k) = false := beq_eq_false_iff_ne.mpr h
    simp [List.lookup, hb, h]

theorem lookup_dictSet_self {V : Type} :
    ∀ (d : List (PyStr × V)) (k : PyStr) (v : V),
      List.lookup k (dictSet d k v) = some v
  | [], k, v => by simp [dictSet, lookup_cons]
  | (k', v') :: rest, k, v => by
    by_cases h : k' = k
    · simp [dictSet, h, lookup_cons]
    · have ih := lookup_dictSet_self rest k v
      simp [dictSet, h, lookup_cons, Ne.symm h, ih]

theorem lookup_dictSet_ne {V : Type} :
    ∀ (d : List (PyStr × V)) (k k' : PyStr) (v : V), k' ≠ k →
      List.lookup k' (dictSet d k v) = List.lookup k' d
  | [], k, k', v, h => by
    have e : dictSet ([] : List (PyStr × V)) k v = [(k, v)] := rfl
    rw [e, lookup_cons]
    simp [h, List.lookup]
  | (k0, v0) :: rest, k, k', v, h => by
    by_cases h0 : k0 = k
    · subst h0
      simp [dictSet, lookup_cons, h]
    · have ih := lookup_dictSet_ne rest k k' v h
      simp [dictSet, h0, lookup_cons, ih]

theorem mem_dictSet {V : Type} :
    ∀ (d : List (PyStr × V)) (k : PyStr) (v : V) (p : PyStr × V),
      p ∈ dictSet d k v → p ∈ d ∨ p = (k, v)
  | [], k, v, p, h => Or.inr (List.mem_singleton.mp h)
  | (k0, v0) :: rest, k, v, p, h => by
    by_cases h0 : k0 = k
    · simp [dictSet, h0] at h
      rcases h with h | h
      · exact Or.inr (by simp [h])
      · exact Or.inl (List.mem_cons_of_mem _ h)
    · simp only [dictSet, if_neg h0, List.mem_cons] at h
      rcases h with h | h
      · exact Or.inl (by simp [h])
      · rcases mem_dictSet rest k v p h with h1 | h1
        · exact Or.inl (List.mem_cons_of_mem _ h1)
        · exact Or.inr h1

theorem keys_dictSet_mem {V : Type} :
    ∀ (d : List (PyStr × V)) (k : PyStr) (v : V), k ∈ d.map Prod.fst →
      (dictSet d k v).map Prod.fst = d.map Prod.fst
  | [], k, v, hm => absurd hm (List.not_mem_nil k)
  | (k0, v0) :: rest, k, v, hm => by
    by_cases h0 : k0 = k
    · simp [dictSet, h0]
    · have hm2 : k ∈ rest.map Prod.fst := by
        rcases List.mem_cons.mp hm with e | m
        · exact absurd e.symm h0
        · exact m
      simp [dictSet, h0, keys_dictSet_mem rest k v hm2]

theorem keys_dictSet_not_mem {V : Type} :
    ∀ (d : List (PyStr × V)) (k : PyStr) (v : V), k ∉ d.map Prod.fst →
      (dictSet d k v).map Prod.fst = d.map Prod.fst ++ [k]
  | [], k, v, _ => rfl
  | (k0, v0) :: rest, k, v, hm => by
    have h0 : ¬ k0 = k := by
      intro e
      subst e
      exact hm (List.mem_cons_self k0 (rest.map Prod.fst))
    have hm2 : k ∉ rest.map Prod.fst :=
      fun m => hm (List.mem_cons_of_mem k0 m)
    simp [dictSet, h0, keys_dictSet_not_mem rest k v hm2]

theorem nodup_keys_dictSet {V : Type} (d : List (PyStr × V)) (k : PyStr) (v : V)
    (h : (d.map Prod.fst).Nodup) : ((dictSet d k v).map Prod.fst).Nodup := by
  by_cases hm : k ∈ d.map Prod.fst
  · rw [keys_dictSet_mem d k v hm]; exact h
  · rw [keys_dictSet_not_mem d k v hm]
    simp [List.nodup_append, h, hm]

/-- Everything the bind-mount loop body does to the state when it
succeeds, in terms of the parsed pieces. -/
theorem processBindMount_ok_shape (tmpl : PyStr → PyStr) (ignore : List PyStr)
    (st : ConvState) (raw : PyStr) (st1 : ConvState)
    (hs : processBindMount tmpl ignore st raw = .ok st1) :
    ∃ a pth g, parseBindMount raw = .ok (a, pth, g) ∧
      st1.volumeMounts = st.volumeMounts ++ [⟨slugify a, some pth, g⟩] ∧
      st1.volumes = dictSet st.volumes (slugify a)
        ⟨slugify a, .persistentVolumeClaim (tmpl (slugify a))⟩ ∧
      st1.extras = st.extras ++
        (cond (ignore.contains (slugify a)) []
          [mkExtraResource (tmpl (slugify a))]) ∧
      st1.securityContext = st.securityContext := by
  unfold processBindMount at hs
  cases hp : parseBindMount raw with
  | error e => rw [hp] at hs; cases hs
  | ok x =>
    obtain ⟨a, pth, g⟩ := x
    rw [hp] at hs
    refine ⟨a, pth, g, rfl, ?_⟩
    cases hc : ignore.contains (slugify a) with
    | true =>
      simp only [hc, if_true] at hs
      cases hs
      simp [cond]
    | false =>
      simp only [hc, Bool.false_eq_true, if_false] at hs
      cases hs
      simp [cond]

/-- Everything the tmpfs loop body does to the state when it succeeds. -/
theorem processTmpfsMount_ok_shape (name : PyStr) (st : ConvState) (raw : PyStr)
    (st1 : ConvState) (hs : processTmpfsMount name st raw = .ok st1) :
    ∃ gp attrs sc, parseTmpfsMount raw = .ok (gp, attrs) ∧
      scOfAttrs (pyDict attrs) = .ok sc ∧
      st1.volumeMounts = st.volumeMounts ++
        [⟨slugify (name ++ str "-" ++ pyRemoveSlash gp), none, gp⟩] ∧
      st1.volumes = dictSet st.volumes (slugify (name ++ str "-" ++ pyRemoveSlash gp))
        ⟨slugify (name ++ str "-" ++ pyRemoveSlash gp), .emptyDirMemory⟩ ∧
      st1.extras = st.extras ∧
      st1.securityContext = (if sc = emptySC then st.securityContext else some sc) := by
  unfold processTmpfsMount at hs
  split at hs
  next e heq => simp at hs
  next gp attrs heq =>
    split at hs
    next e heq2 => simp at hs
    next sc heq2 =>
      cases hs
      exact ⟨gp, attrs, sc, heq, heq2, rfl, rfl, rfl, rfl⟩

/-- An invariant preserved by every successful loop-body step is preserved
by the whole loop. -/
theorem processAll_invariant (P : ConvState → Prop)
    (step : ConvState → PyStr → Except PyValueError ConvState)
    (hstep : ∀ st raw st', P st → step st raw = .ok st' → P st') :
    ∀ (l : List PyStr) (st st' : ConvState), P st →
      processAll step st l = .ok st' → P st'
  | [], st, st', hP, h => by
    simp only [processAll, Except.ok.injEq] at h
    exact h ▸ hP
  | raw :: rest, st, st', hP, h => by
    simp only [processAll] at h
    cases e : step st raw with
    | ok st1 =>
      rw [e] at h
      exact processAll_invariant P step hstep rest st1 st' (hstep st raw st1 hP e) h
    | error err => rw [e] at h; cases h

/-- Decomposition of a successful `convert_service` run into the two loop
results. -/
theorem convert_service_ok_decomp (name : PyStr) (service : Service)
    (tmpl : PyStr → PyStr) (ignore_volumes : List PyStr) (r : ConversionResult)
    (h : convert_service name service tmpl ignore_volumes = .ok r) :
    ∃ st1 st2 : ConvState,
      processAll (processBindMount tmpl ignore_volumes) ⟨[], [], [], none⟩
        service.volumes = .ok st1 ∧
      processAll (processTmpfsMount name) st1 service.tmpfs = .ok st2 ∧
      r.container.volumeMounts = st2.volumeMounts ∧
      r.container.securityContext = st2.securityContext ∧
      r.volumes = st2.volumes ∧
      r.extras = st2.extras := by
  unfold convert_service at h
  split at h
  next e heq => simp at h
  next st1 heq =>
    split at h
    next e heq2 => simp at h
    next st2 heq2 =>
      cases h
      exact ⟨st1, st2, heq, heq2, rfl, rfl, rfl, rfl⟩

/-- The consistency property of C10: every volume mount of the container
refers to a key of the volumes dict, and the spec stored there carries the
same name. -/
def MountsConsistent (mounts : List VolumeMount)
    (volumes : List (PyStr × VolumeSpec)) : Prop :=
  ∀ vm ∈ mounts, ∃ vs, List.lookup vm.name volumes = some vs ∧ vs.name = vm.name

/-- Registering a volume under key `k` with matching `name` field and
appending a mount that refers to `k` preserves consistency. -/
theorem mountsConsistent_extend (mounts : List VolumeMount)
    (volumes : List (PyStr × VolumeSpec)) (k : PyStr) (sp : Option PyStr)
    (mp : PyStr) (src : VolumeSource)
    (h : MountsConsistent mounts volumes) :
    MountsConsistent (mounts ++ [⟨k, sp, mp⟩])
      (dictSet volumes k ⟨k, src⟩) := by
  intro vm hvm
  rcases List.mem_append.mp hvm with hm | hm
  · obtain ⟨vs, hl, hn⟩ := h vm hm
    by_cases hk : vm.name = k
    · refine ⟨⟨k, src⟩, ?_, ?_⟩
      · rw [hk]; exact lookup_dictSet_self volumes k ⟨k, src⟩
      · rw [hk]
    · refine ⟨vs, ?_, hn⟩
      rw [lookup_dictSet_ne volumes k vm.name ⟨k, src⟩ hk]
      exact hl
  · have he : vm = ⟨k, sp, mp⟩ := List.mem_singleton.mp hm
    subst he
    exact ⟨⟨k, src⟩, lookup_dictSet_self volumes k ⟨k, src⟩, rfl⟩

/-- C10: for every service whose mounts all parse, the returned
`ConversionResult` is internally consistent — every entry of the
container's `volumeMounts` names a key of the `volumes` dict, and the
`VolumeSpec` stored under that key carries that same name. -/
theorem C10_result_consistency (name : PyStr) (service : Service)
    (tmpl : PyStr → PyStr) (ignore_volumes : List PyStr) (r : ConversionResult)
    (h : convert_service name service tmpl ignore_volumes = .ok r) :
    MountsConsistent r.container.volumeMounts r.volumes := by
  obtain ⟨st1, st2, h1, h2, hm, _, hv, _⟩ :=
    convert_service_ok_decomp name service tmpl ignore_volumes r h
  rw [hm, hv]
  have step1 : ∀ st raw st', MountsConsistent st.volumeMounts st.volumes →
      processBindMount tmpl ignore_volumes st raw = .ok st' →
      MountsConsistent st'.volumeMounts st'.volumes := by
    intro st raw st' hP hs
    obtain ⟨a, pth, g, _, hmo, hvo, _, _⟩ :=
      processBindMount_ok_shape tmpl ignore_volumes st raw st' hs
    rw [hmo, hvo]
    exact mountsConsistent_extend st.volumeMounts st.volumes (slugify a)
      (some pth) g (.persistentVolumeClaim (tmpl (slugify a))) hP
  have step2 : ∀ st raw st', MountsConsistent st.volumeMounts st.volumes →
      processTmpfsMount name st raw = .ok st' →
      MountsConsistent st'.volumeMounts st'.volumes := by
    intro st raw st' hP hs
    obtain ⟨gp, attrs, sc, _, _, hmo, hvo, _, _⟩ :=
      processTmpfsMount_ok_shape name st raw st' hs
    rw [hmo, hvo]
    exact mountsConsistent_extend st.volumeMounts st.volumes
      (slugify (name ++ str "-" ++ pyRemoveSlash gp)) none gp .emptyDirMemory hP
  have h0 : MountsConsistent ([] : List VolumeMount) [] := by
    intro vm hvm
    cases hvm
  have inv1 := processAll_invariant
    (fun s => MountsConsistent s.volumeMounts s.volumes)
    (processBindMount tmpl ignore_volumes)
    step1 service.volumes ⟨[], [], [], none⟩ st1 h0 h1
  exact processAll_invariant
    (fun s => MountsConsistent s.volumeMounts s.volumes)
    (processTmpfsMount name) step2 service.tmpfs st1 st2 inv1 h2

/-- Whether one raw bind-mount string makes the loop append an extra claim:
it parses, and its slugified resource name is not ignored. -/
def bindEmitsExtra (ignore_volumes : List PyStr) (raw : PyStr) : Bool :=
  match parseBindMount raw with
  | .ok (a, _, _) => !(ignore_volumes.contains (slugify a))
  | .error _ => false

/-- Across a successful bind-mount loop, `extras` grows by exactly one
entry per mount whose slugified resource name is not ignored — duplicates
included. -/
theorem bind_fold_extras_count (tmpl : PyStr → PyStr) (ignore : List PyStr) :
    ∀ (raws : List PyStr) (st st' : ConvState),
      processAll (processBindMount tmpl ignore) st raws = .ok st' →
      st'.extras.length = st.extras.length + raws.countP (bindEmitsExtra ignore)
  | [], st, st', h => by
    simp only [processAll, Except.ok.injEq] at h
    subst h
    simp
  | raw :: rest, st, st', h => by
    simp only [processAll] at h
    cases hs : processBindMount tmpl ignore st raw with
    | error e => rw [hs] at h; cases h
    | ok st1 =>
      rw [hs] at h
      have ih := bind_fold_extras_count tmpl ignore rest st1 st' h
      obtain ⟨a, pth, g, hp, _, _, hex, _⟩ :=
        processBindMount_ok_shape tmpl ignore st raw st1 hs
      have hb : bindEmitsExtra ignore raw = !(ignore.contains (slugify a)) := by
        simp only [bindEmitsExtra, hp]
      rw [ih, hex, List.countP_cons, hb]
      cases hc : ignore.contains (slugify a) with
      | true => simp [hc]
      | false => simp [hc]; omega

/-- The tmpfs loop never touches `extras`. -/
theorem tmpfs_fold_extras (name : PyStr) (ts : List PyStr) (st st' : ConvState)
    (h : processAll (processTmpfsMount name) st ts = .ok st') :
    st'.extras = st.extras := by
  refine processAll_invariant (fun s => s.extras = st.extras)
    (processTmpfsMount name) ?_ ts st st' rfl h
  intro s raw s' hPs hs
  obtain ⟨gp, attrs, sc, _, _, _, _, hex, _⟩ :=
    processTmpfsMount_ok_shape name s raw s' hs
  rw [hex, hPs]

/-- Both loop bodies keep the keys of the volumes dict duplicate-free. -/
theorem convert_service_keys_nodup (name : PyStr) (service : Service)
    (tmpl : PyStr → PyStr) (ignore_volumes : List PyStr) (r : ConversionResult)
    (h : convert_service name service tmpl ignore_volumes = .ok r) :
    (r.volumes.map Prod.fst).Nodup := by
  obtain ⟨st1, st2, h1, h2, _, _, hv, _⟩ :=
    convert_service_ok_decomp name service tmpl ignore_volumes r h
  rw [hv]
  have step1 : ∀ st raw st', (st.volumes.map Prod.fst).Nodup →
      processBindMount tmpl ignore_volumes st raw = .ok st' →
      (st'.volumes.map Prod.fst).Nodup := by
    intro st raw st' hP hs
    obtain ⟨a, pth, g, _, _, hvo, _, _⟩ :=
      processBindMount_ok_shape tmpl ignore_volumes st raw st' hs
    rw [hvo]
    exact nodup_keys_dictSet st.volumes _ _ hP
  have step2 : ∀ st raw st', (st.volumes.map Prod.fst).Nodup →
      processTmpfsMount name st raw = .ok st' →
      (st'.volumes.map Prod.fst).Nodup := by
    intro st raw st' hP hs
    obtain ⟨gp, attrs, sc, _, _, _, hvo, _, _⟩ :=
      processTmpfsMount_ok_shape name st raw st' hs
    rw [hvo]
    exact nodup_keys_dictSet st.volumes _ _ hP
  have inv1 := processAll_invariant
    (fun s => (s.volumes.map Prod.fst).Nodup)
    (processBindMount tmpl ignore_volumes)
    step1 service.volumes ⟨[], [], [], none⟩ st1 (by simp) h1
  exact processAll_invariant
    (fun s => (s.volumes.map Prod.fst).Nodup)
    (processTmpfsMount name) step2 service.tmpfs st1 st2 inv1 h2

/-- C2: the claim says duplicate bind mounts sharing a resourceName yield
exactly one VolumeSpec AND at most one ExtraResource.  The first half
holds (the volumes dict is keyed by the slugified resourceName, so its
keys are duplicate-free); the second half is amended: `extras` receives
one PersistentVolumeClaim document per successfully parsed, non-ignored
bind mount, duplicates included — there is no deduplication of extras. -/
theorem C2_one_volume_but_one_extra_per_mount (name : PyStr) (service : Service)
    (tmpl : PyStr → PyStr) (ignore_volumes : List PyStr) (r : ConversionResult)
    (h : convert_service name service tmpl ignore_volumes = .ok r) :
    (r.volumes.map Prod.fst).Nodup ∧
    r.extras.length = service.volumes.countP (bindEmitsExtra ignore_volumes) := by
  refine ⟨convert_service_keys_nodup name service tmpl ignore_volumes r h, ?_⟩
  obtain ⟨st1, st2, h1, h2, _, _, _, hex⟩ :=
    convert_service_ok_decomp name service tmpl ignore_volumes r h
  rw [hex, tmpfs_fold_extras name service.tmpfs st1 st2 h2]
  have hc := bind_fold_extras_count tmpl ignore_volumes service.volumes
    ⟨[], [], [], none⟩ st1 h1
  simpa using hc

/-- Provenance of `extras` entries across a successful bind-mount loop:
every extra was there before, or came from some mount of the list whose
slugified resource name is not ignored, and carries the template rendered
over that slugified name. -/
theorem bind_fold_extras_from (tmpl : PyStr → PyStr) (ignore : List PyStr) :
    ∀ (raws : List PyStr) (st st' : ConvState),
      processAll (processBindMount tmpl ignore) st raws = .ok st' →
      ∀ e ∈ st'.extras, e ∈ st.extras ∨
        ∃ raw ∈ raws, ∃ a pth g, parseBindMount raw = .ok (a, pth, g) ∧
          ignore.contains (slugify a) = false ∧
          e = mkExtraResource (tmpl (slugify a))
  | [], st, st', h => by
    simp only [processAll, Except.ok.injEq] at h
    subst h
    intro e he
    exact Or.inl he
  | raw :: rest, st, st', h => by
    simp only [processAll] at h
    cases hs : processBindMount tmpl ignore st raw with
    | error e0 => rw [hs] at h; cases h
    | ok st1 =>
      rw [hs] at h
      intro e he
      rcases bind_fold_extras_from tmpl ignore rest st1 st' h e he with
        h1 | ⟨raw2, hr2, a, pth, g, hp, hc, he2⟩
      · obtain ⟨a, pth, g, hp, _, _, hex, _⟩ :=
          processBindMount_ok_shape tmpl ignore st raw st1 hs
        rw [hex] at h1
        rcases List.mem_append.mp h1 with h2 | h2
        · exact Or.inl h2
        · cases hc : ignore.contains (slugify a) with
          | true => rw [hc] at h2; cases h2
          | false =>
            rw [hc] at h2
            exact Or.inr ⟨raw, List.mem_cons_self raw rest, a, pth, g, hp, hc,
              List.mem_singleton.mp h2⟩
      · exact Or.inr ⟨raw2, List.mem_cons_of_mem raw hr2, a, pth, g, hp, hc, he2⟩

/-- Provenance of volumes-dict entries across a successful bind-mount
loop: every entry was there before, or is the persistent-claim entry of
some mount of the list, keyed by the slugified resource name. -/
theorem bind_fold_volumes_from (tmpl : PyStr → PyStr) (ignore : List PyStr) :
    ∀ (raws : List PyStr) (st st' : ConvState),
      processAll (processBindMount tmpl ignore) st raws = .ok st' →
      ∀ kv ∈ st'.volumes, kv ∈ st.volumes ∨
        ∃ raw ∈ raws, ∃ a pth g, parseBindMount raw = .ok (a, pth, g) ∧
          kv = (slugify a,
            ⟨slugify a, .persistentVolumeClaim (tmpl (slugify a))⟩)
  | [], st, st', h => by
    simp only [processAll, Except.ok.injEq] at h
    subst h
    intro kv hkv
    exact Or.inl hkv
  | raw :: rest, st, st', h => by
    simp only [processAll] at h
    cases hs : processBindMount tmpl ignore st raw with
    | error e0 => rw [hs] at h; cases h
    | ok st1 =>
      rw [hs] at h
      intro kv hkv
      rcases bind_fold_volumes_from tmpl ignore rest st1 st' h kv hkv with
        h1 | ⟨raw2, hr2, a, pth, g, hp, he2⟩
      · obtain ⟨a, pth, g, hp, _, hvo, _, _⟩ :=
          processBindMount_ok_shape tmpl ignore st raw st1 hs
        rw [hvo] at h1
        rcases mem_dictSet st.volumes _ _ kv h1 with h2 | h2
        · exact Or.inl h2
        · exact Or.inr ⟨raw, List.mem_cons_self raw rest, a, pth, g, hp, h2⟩
      · exact Or.inr ⟨raw2, List.mem_cons_of_mem raw hr2, a, pth, g, hp, he2⟩

/-- Across a successful tmpfs loop, every volumes-dict entry was there
before or is an in-memory scratch volume. -/
theorem tmpfs_fold_volumes_from (name : PyStr) :
    ∀ (ts : List PyStr) (st st' : ConvState),
      processAll (processTmpfsMount name) st ts = .ok st' →
      ∀ kv ∈ st'.volumes, kv ∈ st.volumes ∨
        kv.2.source = VolumeSource.emptyDirMemory
  | [], st, st', h => by
    simp only [processAll, Except.ok.injEq] at h
    subst h
    intro kv hkv
    exact Or.inl hkv
  | t :: ts, st, st', h => by
    simp only [processAll] at h
    cases hs : processTmpfsMount name st t with
    | error e0 => rw [hs] at h; cases h
    | ok st1 =>
      rw [hs] at h
      intro kv hkv
      rcases tmpfs_fold_volumes_from name ts st1 st' h kv hkv with h1 | h1
      · obtain ⟨gp, attrs, sc, _, _, _, hvo, _, _⟩ :=
          processTmpfsMount_ok_shape name st t st1 hs
        rw [hvo] at h1
        rcases mem_dictSet st.volumes _ _ kv h1 with h2 | h2
        · exact Or.inl h2
        · right
          rw [h2]
      · exact Or.inr h1

/-- C4: the claim says claim names are rendered from the UNSLUGIFIED
resourceName.  Amended: every persistent-claim `VolumeSpec` and every
`ExtraResource` of a successful conversion carries the template rendered
over the SLUGIFIED first segment of the originating bind-mount string
(`pvc_name = slugify(pvc_name)` runs before the template is formatted),
and the volumes dict is keyed by that slugified name. -/
theorem C4_claim_names_use_slugified_name (name : PyStr) (service : Service)
    (tmpl : PyStr → PyStr) (ignore_volumes : List PyStr) (r : ConversionResult)
    (h : convert_service name service tmpl ignore_volumes = .ok r) :
    (∀ kv ∈ r.volumes, ∀ cn,
      kv.2.source = VolumeSource.persistentVolumeClaim cn →
      ∃ raw ∈ service.volumes, ∃ a pth g,
        parseBindMount raw = .ok (a, pth, g) ∧
        kv.1 = slugify a ∧ cn = tmpl (slugify a)) ∧
    (∀ e ∈ r.extras, ∃ raw ∈ service.volumes, ∃ a pth g,
      parseBindMount raw = .ok (a, pth, g) ∧
      e.claimName = tmpl (slugify a)) := by
  obtain ⟨st1, st2, h1, h2, _, _, hv, hex⟩ :=
    convert_service_ok_decomp name service tmpl ignore_volumes r h
  constructor
  · intro kv hkv cn hsrc
    rw [hv] at hkv
    rcases tmpfs_fold_volumes_from name service.tmpfs st1 st2 h2 kv hkv with
      h3 | h3
    · rcases bind_fold_volumes_from tmpl ignore_volumes service.volumes
        ⟨[], [], [], none⟩ st1 h1 kv h3 with h4 | ⟨raw, hr, a, pth, g, hp, he⟩
      · cases h4
      · refine ⟨raw, hr, a, pth, g, hp, ?_, ?_⟩
        · rw [he]
        · rw [he] at hsrc
          exact (VolumeSource.persistentVolumeClaim.inj hsrc).symm
    · rw [hsrc] at h3
      cases h3
  · intro e he
    rw [hex, tmpfs_fold_extras name service.tmpfs st1 st2 h2] at he
    rcases bind_fold_extras_from tmpl ignore_volumes service.volumes
      ⟨[], [], [], none⟩ st1 h1 e he with h3 | ⟨raw, hr, a, pth, g, hp, _, he2⟩
    · cases h3
    · exact ⟨raw, hr, a, pth, g, hp, by rw [he2]; rfl⟩

/-- C5: the claim says a resourceName present in the caller-supplied
ignore set never yields an ExtraResource.  The code compares the SLUGIFIED
resource name against the set, so the amended statement is: every
ExtraResource of a successful conversion comes from a bind mount whose
slugified resource name is NOT in the ignore set (and carries the template
rendered over that slugified name); a mount whose slugified name is in the
set contributes no extra. -/
theorem C5_ignored_slug_never_extra (name : PyStr) (service : Service)
    (tmpl : PyStr → PyStr) (ignore_volumes : List PyStr) (r : ConversionResult)
    (h : convert_service name service tmpl ignore_volumes = .ok r) :
    ∀ e ∈ r.extras, ∃ raw ∈ service.volumes, ∃ a pth g,
      parseBindMount raw = .ok (a, pth, g) ∧
      ignore_volumes.contains (slugify a) = false ∧
      e.claimName = tmpl (slugify a) := by
  obtain ⟨st1, st2, h1, h2, _, _, _, hex⟩ :=
    convert_service_ok_decomp name service tmpl ignore_volumes r h
  intro e he
  rw [hex, tmpfs_fold_extras name service.tmpfs st1 st2 h2] at he
  rcases bind_fold_extras_from tmpl ignore_volumes service.volumes
    ⟨[], [], [], none⟩ st1 h1 e he with h3 | ⟨raw, hr, a, pth, g, hp, hc, he2⟩
  · cases h3
  · exact ⟨raw, hr, a, pth, g, hp, hc, by rw [he2]; rfl⟩

/-- Last-write-wins for the security context: when the final tmpfs mount of
the loop carries a nonempty `securityContext`, that context — alone — is
what the state ends with, regardless of what earlier mounts contributed. -/
theorem tmpfs_fold_last_sc (name : PyStr) :
    ∀ (ts : List PyStr) (st st' : ConvState) (t gp : PyStr)
      (attrs : List (PyStr × PyStr)) (sc : SecurityContext),
      parseTmpfsMount t = .ok (gp, attrs) →
      scOfAttrs (pyDict attrs) = .ok sc →
      sc ≠ emptySC →
      processAll (processTmpfsMount name) st (ts ++ [t]) = .ok st' →
      st'.securityContext = some sc
  | [], st, st', t, gp, attrs, sc, hp, hsc, hne, h => by
    simp only [List.nil_append, processAll] at h
    cases hs : processTmpfsMount name st t with
    | error e => rw [hs] at h; cases h
    | ok st1 =>
      rw [hs] at h
      simp only [processAll, Except.ok.injEq] at h
      subst h
      obtain ⟨gp2, attrs2, sc2, hp2, hsc2, _, _, _, hsec⟩ :=
        processTmpfsMount_ok_shape name st t st1 hs
      rw [hp] at hp2
      injection hp2 with hpair
      injection hpair with e1 e2
      subst e1
      subst e2
      rw [hsc] at hsc2
      injection hsc2 with e3
      subst e3
      rw [hsec, if_neg hne]
  | t0 :: ts, st, st', t, gp, attrs, sc, hp, hsc, hne, h => by
    simp only [List.cons_append, processAll] at h
    cases hs : processTmpfsMount name st t0 with
    | error e => rw [hs] at h; cases h
    | ok st1 =>
      rw [hs] at h
      exact tmpfs_fold_last_sc name ts st1 st' t gp attrs sc hp hsc hne h

/-- C6: the claim says uid/gid attributes are MERGED into the container's
security context, with values from earlier tmpfs mounts preserved.
Amended: each tmpfs mount whose uid/gid attributes yield a nonempty
security context REPLACES the container's security context wholesale; when
the last tmpfs mount of the service carries such attributes, the resulting
context is exactly the one derived from that mount (`uid` to `runAsUser`,
`gid` to both `runAsGroup` and `fsGroup`), and anything contributed by
earlier mounts is gone.  In particular, for a service whose single tmpfs
string is `"/tmp/x:uid=1000,gid=1000"` the context is
`runAsUser=1000, runAsGroup=1000, fsGroup=1000`, as the claim's example
states. -/
theorem C6_securityContext_last_write_wins (name : PyStr) (service : Service)
    (tmpl : PyStr → PyStr) (ignore_volumes : List PyStr)
    (ts : List PyStr) (t gp : PyStr) (attrs : List (PyStr × PyStr))
    (sc : SecurityContext) (r : ConversionResult)
    (hts : service.tmpfs = ts ++ [t])
    (hp : parseTmpfsMount t = .ok (gp, attrs))
    (hsc : scOfAttrs (pyDict attrs) = .ok sc)
    (hne : sc ≠ emptySC)
    (h : convert_service name service tmpl ignore_volumes = .ok r) :
    r.container.securityContext = some sc := by
  obtain ⟨st1, st2, h1, h2, _, hsec, _, _⟩ :=
    convert_service_ok_decomp name service tmpl ignore_volumes r h
  rw [hts] at h2
  rw [hsec]
  exact tmpfs_fold_last_sc name ts st1 st2 t gp attrs sc hp hsc hne h2

/-- The output lines one services-loop iteration contributes for a service
that converts successfully, and nothing for one that raises. -/
def serviceEmission (out_fname : PyStr) (ignore_volumes : List PyStr)
    (p : PyStr × Service) : List Line :=
  match convert_service (slugify p.1) p.2 pvc_name_template_default
      ignore_volumes with
  | .ok r => emitService (slugify p.1) out_fname r.container r.volumes r.extras
  | .error _ => []

/-- C1: the claim says a malformed mount string aborts only that service,
is reported as a MalformedMountError naming the service and the offending
string, and siblings still complete.  The code installs no handler: the
`ValueError` (whose message names neither) propagates out of the services
loop, so the amended statement is — the services BEFORE the failing one
have their blocks written, and the failing service and every sibling AFTER
it produce nothing; the loop ends with the uncaught error. -/
theorem C1_malformed_mount_aborts_document (out_fname : PyStr)
    (ignore_volumes : List PyStr) (pre : List (PyStr × Service))
    (n : PyStr) (svc : Service) (e : PyValueError)
    (rest : List (PyStr × Service))
    (hpre : ∀ p ∈ pre,
      (convert_service (slugify p.1) p.2 pvc_name_template_default
        ignore_volumes).isOk = true)
    (hbad : convert_service (slugify n) svc pvc_name_template_default
      ignore_volumes = .error e) :
    convertDocumentLoop out_fname ignore_volumes (pre ++ (n, svc) :: rest) =
      ((pre.map (serviceEmission out_fname ignore_volumes)).flatten, some e) := by
  induction pre with
  | nil =>
    simp only [List.nil_append, convertDocumentLoop, hbad, List.map_nil,
      List.flatten_nil]
  | cons p pre ih =>
    have hp := hpre p (List.mem_cons_self p pre)
    cases hc : convert_service (slugify p.1) p.2 pvc_name_template_default
        ignore_volumes with
    | error e0 => rw [hc] at hp; cases hp
    | ok r =>
      have ih2 := ih (fun q hq => hpre q (List.mem_cons_of_mem p hq))
      simp only [List.cons_append, convertDocumentLoop, hc, ih2,
        List.map_cons, List.flatten_cons, serviceEmission]
      simp [List.append_eq, ih2]

/-- C7: the claim says a subdirectory without a compose file is skipped
with a warning, produces no output unit, and siblings still produce
output.  Amended: `get_compose_file` returns `None`, which `main` never
checks; `open(out_file, 'w')` has already created an EMPTY output unit for
the subdirectory when `os.path.relpath(None, ...)` raises `TypeError`, the
run dies, and no later subdirectory produces anything. -/
theorem C7_missing_compose_file_fatal (exclude ignore_volumes : List PyStr)
    (d : SrcDirEntry) (rest : List SrcDirEntry)
    (hdir : d.isDir = true)
    (hexc : exclude.contains d.name = false)
    (hnone : get_compose_file d.files = none) :
    runDirs exclude ignore_volumes (d :: rest) =
      ([(str "_" ++ d.name ++ str ".tpl", [])], some .typeErrorRelpathNone) := by
  have hexm : d.name ∉ exclude := by simpa using hexc
  simp [runDirs, hdir, hexm, hnone]

/-! ### Witnesses: the claim theorems applied at concrete inputs -/

/-- A well-formed sibling document used by the C1 witness. -/
def alphaService : Service := { image := str "a" }

/-- C1 witness: one good service, then the malformed one, then a later
sibling; only the good one's blocks are emitted and the loop ends with the
colon-unpacking error. -/
theorem C1_witness :
    convertDocumentLoop (str "_w.tpl") []
      ([(str "alpha", alphaService)] ++
        (str "bad", { image := str "i", volumes := [str "nocolon"] }) ::
        [(str "omega", { image := str "z" })]) =
      (([(str "alpha", alphaService)].map
          (serviceEmission (str "_w.tpl") [])).flatten,
        some .unpackColon) :=
  C1_malformed_mount_aborts_document (str "_w.tpl") []
    [(str "alpha", alphaService)] (str "bad")
    { image := str "i", volumes := [str "nocolon"] } .unpackColon
    [(str "omega", { image := str "z" })] (by decide) (by decide)

/-- The two-mount service of the C2 witness. -/
def svcC2 : Service :=
  { image := str "i", volumes := [str "/foo/a:/x", str "/foo/b:/y"] }

/-- The conversion result of `svcC2`, spelled out. -/
def resC2 : ConversionResult :=
  { container :=
      { name := str "s"
        image := str "i"
        env := none
        volumeMounts := [⟨str "foo", some (str "a"), str "/x"⟩,
                         ⟨str "foo", some (str "b"), str "/y"⟩]
        securityContext := none }
    volumes := [(str "foo",
      ⟨str "foo", .persistentVolumeClaim (pvc_name_template_default (str "foo"))⟩)]
    extras := [mkExtraResource (pvc_name_template_default (str "foo")),
               mkExtraResource (pvc_name_template_default (str "foo"))] }

/-- C2 witness: the amended statement evaluated on `svcC2`. -/
theorem C2_witness :
    (resC2.volumes.map Prod.fst).Nodup ∧
    resC2.extras.length = svcC2.volumes.countP (bindEmitsExtra []) :=
  C2_one_volume_but_one_extra_per_mount (str "s") svcC2
    pvc_name_template_default [] resC2 (by decide)

/-- The mixed-case service of the C4 witness. -/
def svcC4 : Service := { image := str "i", volumes := [str "/Data/x:/g"] }

/-- The conversion result of `svcC4`, spelled out. -/
def resC4 : ConversionResult :=
  { container :=
      { name := str "s"
        image := str "i"
        env := none
        volumeMounts := [⟨str "data", some (str "x"), str "/g"⟩]
        securityContext := none }
    volumes := [(str "data",
      ⟨str "data", .persistentVolumeClaim (pvc_name_template_default (str "data"))⟩)]
    extras := [mkExtraResource (pvc_name_template_default (str "data"))] }

/-- C4 witness: the volumes-dict key recorded for the bind mount
`"/Data/x:/g"` is the slugified resource name. -/
theorem C4_witness : (str "data" : PyStr) = slugify (str "Data") := by
  have h := C4_claim_names_use_slugified_name (str "s") svcC4
    pvc_name_template_default [] resC4 (by decide)
  obtain ⟨raw, hr, a, pth, g, hp, hk, _⟩ := h.1
    (str "data",
      ⟨str "data", .persistentVolumeClaim (pvc_name_template_default (str "data"))⟩)
    (by decide) (pvc_name_template_default (str "data")) rfl
  have hraw : raw = str "/Data/x:/g" := List.mem_singleton.mp hr
  rw [hraw] at hp
  have hp2 : parseBindMount (str "/Data/x:/g") =
      Except.ok (str "Data", str "x", str "/g") := by decide
  rw [hp2] at hp
  injection hp with hpair
  injection hpair with e1 e23
  rw [← e1] at hk
  exact hk

/-- The service of the C5 witness. -/
def svcC5 : Service := { image := str "i", volumes := [str "/foo/a:/x"] }

/-- The conversion result of `svcC5` under ignore set `["data"]`. -/
def resC5 : ConversionResult :=
  { container :=
      { name := str "s"
        image := str "i"
        env := none
        volumeMounts := [⟨str "foo", some (str "a"), str "/x"⟩]
        securityContext := none }
    volumes := [(str "foo",
      ⟨str "foo", .persistentVolumeClaim (pvc_name_template_default (str "foo"))⟩)]
    extras := [mkExtraResource (pvc_name_template_default (str "foo"))] }

/-- C5 witness: the extra emitted for `"/foo/a:/x"` under ignore set
`["data"]` comes from a slugified name that is not in the set. -/
theorem C5_witness :
    List.contains [str "data"] (slugify (str "foo")) = false := by
  have h := C5_ignored_slug_never_extra (str "s") svcC5
    pvc_name_template_default [str "data"] resC5 (by decide)
  obtain ⟨raw, hr, a, pth, g, hp, hc, _⟩ := h
    (mkExtraResource (pvc_name_template_default (str "foo"))) (by decide)
  have hraw : raw = str "/foo/a:/x" := List.mem_singleton.mp hr
  rw [hraw] at hp
  have hp2 : parseBindMount (str "/foo/a:/x") =
      Except.ok (str "foo", str "a", str "/x") := by decide
  rw [hp2] at hp
  injection hp with hpair
  injection hpair with e1 e23
  rw [← e1] at hc
  exact hc

/-- The single-tmpfs service of the C6 witness, the claim's own example. -/
def svcC6 : Service := { image := str "i", tmpfs := [str "/tmp/x:uid=1000,gid=1000"] }

/-- The conversion result of `svcC6`, spelled out. -/
def resC6 : ConversionResult :=
  { container :=
      { name := str "s"
        image := str "i"
        env := none
        volumeMounts := [⟨str "s-tmp-x", none, str "/tmp/x"⟩]
        securityContext := some ⟨some 1000, some 1000, some 1000⟩ }
    volumes := [(str "s-tmp-x", ⟨str "s-tmp-x", .emptyDirMemory⟩)]
    extras := [] }

/-- C6 witness: the claim's example string yields
runAsUser=1000, runAsGroup=1000, fsGroup=1000. -/
theorem C6_witness :
    resC6.container.securityContext = some ⟨some 1000, some 1000, some 1000⟩ :=
  C6_securityContext_last_write_wins (str "s") svcC6 pvc_name_template_default []
    [] (str "/tmp/x:uid=1000,gid=1000") (str "/tmp/x")
    [(str "uid", str "1000"), (str "gid", str "1000")]
    ⟨some 1000, some 1000, some 1000⟩ resC6
    (by decide) (by decide) (by decide) (by decide) (by decide)

/-- The compose-less directory of the C7 witness. -/
def dirC7 : SrcDirEntry := ⟨str "nodc", true, [(str "Dockerfile", true)], []⟩

/-- C7 witness: the missing compose file leaves one empty output unit and
kills the run before the later sibling is scanned. -/
theorem C7_witness :
    runDirs default_exclude default_mount
      [dirC7, ⟨str "later", true, [(str "docker-compose.yml", true)], []⟩] =
      ([(str "_" ++ str "nodc" ++ str ".tpl", [])], some .typeErrorRelpathNone) :=
  C7_missing_compose_file_fatal default_exclude default_mount dirC7
    [⟨str "later", true, [(str "docker-compose.yml", true)], []⟩]
    (by decide) (by decide) (by decide)

/-- The mixed bind/tmpfs service of the C10 witness. -/
def svcC10 : Service :=
  { image := str "i", volumes := [str "/data/a/b:/x"], tmpfs := [str "/tmp/y:uid=5"] }

/-- The conversion result of `svcC10`, spelled out. -/
def resC10 : ConversionResult :=
  { container :=
      { name := str "s"
        image := str "i"
        env := none
        volumeMounts := [⟨str "data", some (str "a/b"), str "/x"⟩,
                         ⟨str "s-tmp-y", none, str "/tmp/y"⟩]
        securityContext := some ⟨some 5, none, none⟩ }
    volumes := [(str "data",
        ⟨str "data", .persistentVolumeClaim (pvc_name_template_default (str "data"))⟩),
      (str "s-tmp-y", ⟨str "s-tmp-y", .emptyDirMemory⟩)]
    extras := [mkExtraResource (pvc_name_template_default (str "data"))] }

/-- C10 witness: the consistency property evaluated on `svcC10`. -/
theorem C10_witness :
    resC10.container.volumeMounts.all
      (fun vm =>
        (List.lookup vm.name resC10.volumes).map VolumeSpec.name ==
          some vm.name) = true := by
  have h := C10_result_consistency (str "s") svcC10 pvc_name_template_default []
    resC10 (by decide)
  rw [List.all_eq_true]
  intro vm hm
  obtain ⟨vs, hl, hn⟩ := h vm hm
  rw [hl]
  simp [hn]
